import Mathlib

/-!
Shallow embedding of the CodeReview service (FastAPI application) core:
the error taxonomy of `app/core/exceptions.py`, the validators and URL
parsing of `app/core/security.py`, the GitHub client of
`app/services/github.py`, and the repository/analysis endpoints of
`app/api/endpoints/repositories.py` and `app/api/endpoints/analysis.py`.

Strings are modelled as Lean `String`/`List Char`; Python case mapping is
modelled for the ASCII range (all enumeration values in the source are
ASCII).  Python `urllib.parse.urlparse` is modelled by its documented
behaviour on the netloc/path components: tab, CR and LF bytes are removed,
a leading `scheme:` (letter followed by letters/digits/`+`/`-`/`.`) is
split off, `//...` introduces the netloc up to the first `/`, `?` or `#`,
and the path extends to the first `?` or `#`.
-/

namespace CodeReview

/-- Kinds of the exception classes declared in `app/core/exceptions.py`.
`internal` stands for a non-`AppException` failure (e.g. a database
`IntegrityError`) reaching the generic handler, which reports
`InternalServerError` (HTTP 500). -/
inductive ErrKind where
  | validation
  | authentication
  | authorization
  | notFound
  | conflict
  | rateLimit
  | externalService
  | database
  | internal
deriving DecidableEq

/-- The application error values raised by the embedded code, mirroring
`ValidationException`, `AuthenticationException`, `NotFoundException`,
`ConflictException`, `ExternalServiceException`, `DatabaseException`
plus the generic-handler case for unhandled exceptions. -/
inductive AppError where
  | validation (msg : String)
  | authentication (msg : String)
  | notFound (resource : String) (identifier : String)
  | conflict (msg : String)
  | externalService (service : String) (msg : String)
  | database (msg : String)
  | internal (msg : String)
deriving DecidableEq

/-- The exception class (error kind) of an `AppError`. -/
def AppError.kind : AppError → ErrKind
  | .validation _ => .validation
  | .authentication _ => .authentication
  | .notFound _ _ => .notFound
  | .conflict _ => .conflict
  | .externalService _ _ => .externalService
  | .database _ => .database
  | .internal _ => .internal

/-- The error kind of a fallible result, `none` on success. -/
def errKindOf : Except AppError α → Option ErrKind
  | .error e => some e.kind
  | .ok _ => none

instance {ε α : Type} [DecidableEq ε] [DecidableEq α] : DecidableEq (Except ε α) := fun x y =>
  match x, y with
  | .error a, .error b => decidable_of_iff (a = b) ⟨by rintro rfl; rfl, fun hc => by injection hc⟩
  | .ok a, .ok b => decidable_of_iff (a = b) ⟨by rintro rfl; rfl, fun hc => by injection hc⟩
  | .error _, .ok _ => isFalse (fun hc => Except.noConfusion hc)
  | .ok _, .error _ => isFalse (fun hc => Except.noConfusion hc)

/-- The success value of a fallible result, `none` on failure. -/
def okOf : Except AppError α → Option α
  | .error _ => none
  | .ok a => some a

/-! ### `validate_severity` and `validate_issue_type` (`app/core/security.py`) -/

/-- Python `str.lower`, modelled char-wise on the ASCII range. -/
def pyLower (s : String) : String := String.mk (s.data.map Char.toLower)

/-- Python `str.upper`, modelled char-wise on the ASCII range. -/
def pyUpper (s : String) : String := String.mk (s.data.map Char.toUpper)

/-- `allowed_severities` in `validate_severity`. -/
def allowed_severities : List String := ["low", "medium", "high", "critical"]

/-- `allowed_types` in `validate_issue_type`. -/
def allowed_types : List String :=
  ["security", "performance", "codeQuality", "accessibility", "bug", "style"]

/-- `validate_severity` (`app/core/security.py`): lowercases the input and
accepts exactly the members of `allowed_severities`, returning the
lowercased form; otherwise raises `ValidationException`.  Python
`str.lower` is modelled on the ASCII range by `pyLower`. -/
def validate_severity (severity : String) : Except AppError String :=
  let severity_lower := pyLower severity
  if allowed_severities.contains severity_lower then
    .ok severity_lower
  else
    .error (.validation ("Invalid severity: " ++ severity ++
      ". Must be one of: low, medium, high, critical"))

/-- `validate_issue_type` (`app/core/security.py`): accepts exactly the
members of `allowed_types` unchanged (no case normalisation); otherwise
raises `ValidationException`. -/
def validate_issue_type (issue_type : String) : Except AppError String :=
  if allowed_types.contains issue_type then
    .ok issue_type
  else
    .error (.validation ("Invalid issue type: " ++ issue_type ++
      ". Must be one of: security, performance, codeQuality, accessibility, bug, style"))

/-! ### Model of `urllib.parse.urlparse` (netloc and path components) -/

/-- Bytes removed from a URL by `urlsplit` (WHATWG): tab, CR, LF. -/
def isRemovedByte (c : Char) : Bool := c == '\t' || c == '\r' || c == '\n'

/-- Remove tab/CR/LF from the URL, as `urlsplit` does before parsing. -/
def removeCtlBytes (l : List Char) : List Char := l.filter (fun c => !isRemovedByte c)

/-- Characters permitted in a URL scheme after the leading letter. -/
def isSchemeChar (c : Char) : Bool := c.isAlphanum || c == '+' || c == '-' || c == '.'

/-- Split off a leading `scheme:` when the text before the first `:` is a
letter followed by scheme characters; otherwise leave the URL as is
(mirrors the scheme detection of CPython `urlsplit`). -/
def dropScheme (l : List Char) : List Char :=
  let pre := l.takeWhile (fun c => c != ':')
  match l.dropWhile (fun c => c != ':') with
  | ':' :: t =>
    match pre with
    | [] => l
    | c :: cs => if c.isAlpha && cs.all isSchemeChar then t else l
  | _ => l

/-- Characters ending the netloc component. -/
def netlocDelim (c : Char) : Bool := c == '/' || c == '?' || c == '#'

/-- After the scheme, `//` introduces the netloc, extending to the first
`/`, `?` or `#`; without `//` the netloc is empty. -/
def splitNetloc : List Char → List Char × List Char
  | '/' :: '/' :: t =>
    (t.takeWhile (fun c => !netlocDelim c), t.dropWhile (fun c => !netlocDelim c))
  | l => ([], l)

/-- The path component: everything up to the first `?` or `#`. -/
def takePath (l : List Char) : List Char := l.takeWhile (fun c => c != '?' && c != '#')

/-- `(urlparse url).netloc` and `(urlparse url).path`. -/
def urlparseNetlocPath (url : List Char) : List Char × List Char :=
  let u := dropScheme (removeCtlBytes url)
  let (netloc, rest) := splitNetloc u
  (netloc, takePath rest)

/-- Python `path.split("/")`: split on every `/`, keeping empty pieces. -/
def splitChar (sep : Char) : List Char → List (List Char)
  | [] => [[]]
  | c :: cs =>
    let r := splitChar sep cs
    if c == sep then [] :: r
    else
      match r with
      | [] => [[c]]
      | h :: t => (c :: h) :: t

/-- `[p for p in parsed.path.split("/") if p]` in `validate_github_url`. -/
def pathSegments (path : List Char) : List (List Char) :=
  (splitChar '/' path).filter (fun s => !s.isEmpty)

/-! ### Name patterns of `validate_github_url` -/

/-- Tail of the regex `^A(M* A)?$`: every character but the last must be a
middle-class character, the last must be alphanumeric. -/
def patTail (mid : Char → Bool) : List Char → Bool
  | [] => false
  | [c] => c.isAlphanum
  | c :: cs => mid c && patTail mid cs

/-- Full match of `^[a-zA-Z0-9](M*[a-zA-Z0-9])?$` where `M` is the middle
character class. -/
def matchesNamePat (mid : Char → Bool) : List Char → Bool
  | [] => false
  | [c] => c.isAlphanum
  | c :: cs => c.isAlphanum && patTail mid cs

/-- Middle class of `owner_pattern`: `[a-zA-Z0-9-_]`. -/
def isMidOwnerChar (c : Char) : Bool := c.isAlphanum || c == '-' || c == '_'

/-- Middle class of `repo_pattern`: `[a-zA-Z0-9-_\.]` (dots allowed). -/
def isMidRepoChar (c : Char) : Bool := isMidOwnerChar c || c == '.'

/-- `re.match(owner_pattern, owner)` in `validate_github_url`. -/
def owner_pattern (s : List Char) : Bool := matchesNamePat isMidOwnerChar s

/-- `re.match(repo_pattern, repo)` in `validate_github_url`. -/
def repo_pattern (s : List Char) : Bool := matchesNamePat isMidRepoChar s

/-! ### `validate_github_url` and `extract_repo_info` (`app/core/security.py`) -/

/-- `validate_github_url`: requires netloc `github.com` or
`www.github.com`, at least two nonempty path segments, the first matching
`owner_pattern` and the second matching `repo_pattern`; returns `True` on
success and raises `ValidationException` otherwise. -/
def validate_github_url (url : String) : Except AppError Bool :=
  let (netloc, path) := urlparseNetlocPath url.data
  if netloc = "github.com".data ∨ netloc = "www.github.com".data then
    match pathSegments path with
    | owner :: repo :: _ =>
      if owner_pattern owner then
        if repo_pattern repo then .ok true
        else .error (.validation ("Invalid GitHub repository name: " ++ String.mk repo))
      else .error (.validation ("Invalid GitHub owner name: " ++ String.mk owner))
    | _ => .error (.validation
        "Invalid GitHub repository URL format. Expected: https://github.com/owner/repo")
  else .error (.validation "URL must be a GitHub repository URL")

/-- `extract_repo_info`: validates the URL, then returns the first two
nonempty path segments as `(owner, repo_name)`. -/
def extract_repo_info (url : String) : Except AppError (String × String) :=
  match validate_github_url url with
  | .error e => .error e
  | .ok _ =>
    match pathSegments (urlparseNetlocPath url.data).2 with
    | owner :: repo :: _ => .ok (String.mk owner, String.mk repo)
    | _ => .error (.validation
        "Invalid GitHub repository URL format. Expected: https://github.com/owner/repo")

/-! ### Data model (`app/models/repository.py`, `app/schemas/repository.py`)

The relational store is modelled as in-memory lists with an id counter;
the unique constraint on `repositories.full_name` and the primary key are
modelled explicitly where an embedded operation depends on them. -/

/-- The JSON record returned by the GitHub repository-detail endpoint,
restricted to the fields the application reads (`repo_data[...]` accesses
in `analyze_repository`).  `.get` accesses are `Option`-valued. -/
structure RepoData where
  full_name : String
  name : String
  owner_login : String
  description : Option String
  html_url : String
  visibility : Option String
  stargazers_count : Option Nat
  forks_count : Option Nat
  watchers_count : Option Nat
  language : Option String
deriving DecidableEq

/-- A row of the `repositories` table (`Repository` model), restricted to
the columns the embedded endpoints read or write.  `last_updated` is
declared with `onupdate=datetime.utcnow`, so every UPDATE of the row —
including the metrics commit of the analysis endpoint — rewrites it to
the commit time; the timestamp is modelled as an abstract clock value. -/
structure Repo where
  id : Nat
  full_name : String
  name : String
  owner : String
  url : String
  description : Option String
  visibility : Option String
  language : Option String
  stars : Option Nat
  forks : Option Nat
  watchers : Option Nat
  code_quality : Option Int
  issues_count : Option Nat
  last_updated : Option Nat
deriving DecidableEq

/-- A row of the `code_issues` table (`CodeIssue` model). -/
structure CodeIssue where
  id : Nat
  repository_id : Nat
  file_path : String
  line_number : Nat
  issue_type : String
  severity : String
  category : String
  message : String
  code : String
  suggestion : Option String
deriving DecidableEq

/-- The database state: the two tables the analysis workflow touches and
the id counter backing the `repositories` primary key. -/
structure Db where
  repositories : List Repo
  code_issues : List CodeIssue
  next_id : Nat
deriving DecidableEq

/-- The `RepositoryCreate` request schema (fields of `RepositoryBase`
used by the embedded endpoints). -/
structure RepositoryCreate where
  full_name : String
  name : String
  owner : String
  url : String
  description : Option String
  visibility : Option String
  language : Option String
  stars : Option Nat
  forks : Option Nat
  watchers : Option Nat
deriving DecidableEq

/-- `Repository(**repository.model_dump())`: a fresh row from a create
schema, with analysis fields unset and the next primary-key id. -/
def Repo.ofCreate (db : Db) (rc : RepositoryCreate) : Repo :=
  { id := db.next_id, full_name := rc.full_name, name := rc.name, owner := rc.owner,
    url := rc.url, description := rc.description, visibility := rc.visibility,
    language := rc.language, stars := rc.stars, forks := rc.forks,
    watchers := rc.watchers, code_quality := none, issues_count := none,
    last_updated := none }

/-- `POST /repositories` (`create_repository` in
`app/api/endpoints/repositories.py`): builds the row and commits.  The
endpoint performs no duplicate check and catches nothing, so a violation
of the unique constraint on `full_name` surfaces as an unhandled database
`IntegrityError`, reported by the generic exception handler as an
internal (HTTP 500) error — not as a `ConflictException`. -/
def create_repository (db : Db) (rc : RepositoryCreate) : Except AppError (Db × Repo) :=
  if db.repositories.any (fun x => x.full_name == rc.full_name) then
    .error (.internal "UNIQUE constraint failed: repositories.full_name")
  else
    let r := Repo.ofCreate db rc
    .ok ({ repositories := db.repositories ++ [r], code_issues := db.code_issues,
           next_id := db.next_id + 1 }, r)

/-! ### The analysis workflow (`app/api/endpoints/analysis.py`) -/

/-- `select(Repository).where(Repository.full_name == ...)` followed by
`scalar_one_or_none()`. -/
def find_by_full_name (db : Db) (fn : String) : Option Repo :=
  db.repositories.find? (fun r => r.full_name == fn)

/-- The `RepositoryCreate(...)` constructed in `analyze_repository` from
the fetched GitHub record (`visibility` defaults to `"public"`). -/
def RepositoryCreate.ofRepoData (rd : RepoData) : RepositoryCreate :=
  { full_name := rd.full_name, name := rd.name, owner := rd.owner_login,
    description := rd.description, url := rd.html_url,
    visibility := some (rd.visibility.getD "public"),
    stars := rd.stargazers_count, forks := rd.forks_count,
    watchers := rd.watchers_count, language := rd.language }

/-- The insert branch of `analyze_repository`: add the new row built from
fetched metadata (analysis fields unset) and bump the id counter. -/
def insert_repo (db : Db) (rd : RepoData) : Db × Repo :=
  let r := Repo.ofCreate db (RepositoryCreate.ofRepoData rd)
  ({ repositories := db.repositories ++ [r], code_issues := db.code_issues,
     next_id := db.next_id + 1 }, r)

/-- Steps 3 of the workflow: look up the repository by `full_name`, and
insert it from the fetched metadata when absent. -/
def analysisTarget (db : Db) (rd : RepoData) : Db × Repo :=
  match find_by_full_name db rd.full_name with
  | some r => (db, r)
  | none => insert_repo db rd

/-- `select(func.count(CodeIssue.id)).where(repository_id == rid).where(severity == s)`. -/
def countSev (db : Db) (rid : Nat) (s : String) : Nat :=
  (db.code_issues.filter (fun i => i.repository_id == rid && i.severity == s)).length

/-- `select(func.count(CodeIssue.id)).where(repository_id == rid).where(issue_type == t)`. -/
def countTyp (db : Db) (rid : Nat) (t : String) : Nat :=
  (db.code_issues.filter (fun i => i.repository_id == rid && i.issue_type == t)).length

/-- The severity loop order in `analyze_repository`. -/
def severity_list : List String := ["low", "medium", "high", "critical"]

/-- The issue-type loop order in `analyze_repository`. -/
def type_list : List String :=
  ["security", "performance", "codeQuality", "accessibility", "bug", "style"]

/-- Access `severity_counts[key]` on the association list built by the
loops (every accessed key is present by construction). -/
def dictGet (l : List (String × Nat)) (k : String) : Nat := (l.lookup k).getD 0

/-- `update_repo_metrics`: the final commit of `analyze_repository`,
setting `code_quality` and `issues_count` on the row with the given id.
The UPDATE also fires the `onupdate` hook of `last_updated`, rewriting it
to the commit time `now`. -/
def update_repo_metrics (db : Db) (rid : Nat) (score : Int) (total : Nat) (now : Nat) : Db :=
  { db with repositories := db.repositories.map (fun r =>
      if r.id == rid then { r with code_quality := some score, issues_count := some total,
                                   last_updated := some now }
      else r) }

/-- The `AnalysisResponse` schema. -/
structure AnalysisResponse where
  repository_id : Nat
  total_issues : Nat
  issues_by_severity : List (String × Nat)
  issues_by_type : List (String × Nat)
  code_quality_score : Int
deriving DecidableEq

/-- `analyze_repository` (`app/api/endpoints/analysis.py`), from the point
where the GitHub metadata has been fetched: upsert the repository row,
count stored issues by severity and by type, compute
`max(0, min(100, 100 - (10*critical + 5*high + 2*medium + 1*low)))`,
persist `code_quality`/`issues_count` (the UPDATE also rewriting
`last_updated` to the commit time `now`), and return the summary. -/
def analyze_repository (db : Db) (repo_data : RepoData) (now : Nat) : Db × AnalysisResponse :=
  let t := analysisTarget db repo_data
  let db1 := t.1
  let repository := t.2
  let severity_counts := severity_list.map (fun s => (s, countSev db1 repository.id s))
  let type_counts := type_list.map (fun ty => (ty, countTyp db1 repository.id ty))
  let total_issues := (severity_counts.map Prod.snd).sum
  let score0 : Int := 100 -
    (10 * (dictGet severity_counts "critical" : Int) +
     5 * (dictGet severity_counts "high" : Int) +
     2 * (dictGet severity_counts "medium" : Int) +
     1 * (dictGet severity_counts "low" : Int))
  let score := max 0 (min 100 score0)
  let db2 := update_repo_metrics db1 repository.id score total_issues now
  (db2, { repository_id := repository.id, total_issues := total_issues,
          issues_by_severity := severity_counts, issues_by_type := type_counts,
          code_quality_score := score })

/-! ### GitHub client (`app/services/github.py`) and token flow -/

/-- Outcome of the single HTTP GET issued by `GitHubService.get_repository`:
either a response with a status code (body meaningful on success) or an
`httpx.RequestError` transport failure. -/
inductive HttpOutcome where
  | response (status : Nat) (body : RepoData)
  | transportError (msg : String)
deriving DecidableEq

/-- `GitHubService.get_repository`, as a function of the upstream outcome:
404 raises `ExternalServiceException("GitHub", "Repository not found")`,
any other non-200 status raises `ExternalServiceException` carrying the
status, a transport failure raises `ExternalServiceException` carrying
the message, and a 200 response returns the parsed record. -/
def get_repository (outcome : HttpOutcome) : Except AppError RepoData :=
  match outcome with
  | .transportError msg => .error (.externalService "GitHub" ("Request failed: " ++ msg))
  | .response stat body =>
    if stat == 404 then .error (.externalService "GitHub" "Repository not found")
    else if stat != 200 then
      .error (.externalService "GitHub" ("API returned status " ++ toString stat))
    else .ok body

/-- One call of `get_repository` against a stream of upstream outcomes,
together with the number of upstream requests issued: the body contains a
single `client.get` and no retry loop, so exactly the first outcome is
consumed and the request count is 1. -/
def get_repository_run (responses : Nat → HttpOutcome) : Except AppError RepoData × Nat :=
  (get_repository (responses 0), 1)

/-- Python truthiness of an optional string (`None` and `""` are falsy). -/
def truthy : Option String → Bool
  | none => false
  | some s => !(s == "")

/-- Python `a or b` on optional strings. -/
def pyOr (a b : Option String) : Option String := if truthy a then a else b

/-- The credential state of a constructed `GitHubService`: the resolved
token and the `Authorization` header attached to outgoing requests. -/
structure GitHubServiceState where
  token : Option String
  authorizationHeader : Option String
deriving DecidableEq

/-- `GitHubService.__init__`: `self.token = token or settings.github_token`;
the `Authorization: token <t>` header is attached iff the resolved token
is truthy. -/
def GitHubService.init (token : Option String) (settings_github_token : Option String) :
    GitHubServiceState :=
  let t := pyOr token settings_github_token
  { token := t,
    authorizationHeader := if truthy t then some ("token " ++ t.getD "") else none }

/-- Python whitespace characters for `str.split()`. -/
def isPySpace (c : Char) : Bool :=
  c == ' ' || c == '\t' || c == '\n' || c == '\r' || c == '\x0b' || c == '\x0c'

/-- Split a character list at every separator, keeping empty pieces. -/
def splitP (p : Char → Bool) : List Char → List (List Char)
  | [] => [[]]
  | c :: cs =>
    let r := splitP p cs
    if p c then [] :: r
    else
      match r with
      | [] => [[c]]
      | h :: t => (c :: h) :: t

/-- Python `s.split()` (no separator): split on whitespace runs, dropping
empty pieces. -/
def pySplitWs (s : String) : List String :=
  ((splitP isPySpace s.data).filter (fun w => !w.isEmpty)).map String.mk

/-- `get_github_token` (`app/core/security.py`): with no (or empty)
`Authorization` header, return the configured token if truthy, else raise
`AuthenticationException("GitHub token required")`; otherwise the header
must be `Bearer <t>` or `token <t>` (scheme case-insensitive), and the
token is validated against the GitHub `/user` endpoint (modelled by the
`github_token_valid` oracle; an invalid token or a transport failure
raises `AuthenticationException`). -/
def get_github_token (authorization settings_github_token : Option String)
    (github_token_valid : String → Bool) : Except AppError (Option String) :=
  if !truthy authorization then
    if truthy settings_github_token then .ok settings_github_token
    else .error (.authentication "GitHub token required")
  else
    match pySplitWs (authorization.getD "") with
    | [scheme_word, tok] =>
      if pyLower scheme_word == "bearer" || pyLower scheme_word == "token" then
        if github_token_valid tok then .ok (some tok)
        else .error (.authentication "Invalid GitHub token")
      else .error (.authentication "Invalid authorization header format")
    | _ => .error (.authentication "Invalid authorization header format")

/-- Token resolution of one `/analyze` call: the `get_github_token`
dependency runs first, then `GitHubService(token=github_token)` is
constructed with the configured settings token as fallback. -/
def analyze_token_flow (authorization settings_github_token : Option String)
    (github_token_valid : String → Bool) : Except AppError GitHubServiceState :=
  match get_github_token authorization settings_github_token github_token_valid with
  | .error e => .error e
  | .ok t => .ok (GitHubService.init t settings_github_token)

/-- A character that cannot disturb URL parsing when it occurs inside a
path segment: not a segment separator (`/`), not a query/fragment
delimiter (`?`, `#`), and not a byte removed by `urlsplit`. -/
def segSafeChar (c : Char) : Bool := !(c == '/' || c == '?' || c == '#' || isRemovedByte c)

/-- A path segment all of whose characters are parse-safe. -/
abbrev segSafe (l : List Char) : Prop := ∀ c ∈ l, segSafeChar c = true

/-! ### Specification-side aggregation formulas (from §4.4 of the spec)

These follow the spec's wording — multiset counts over the stored issues
and the clamp formula — and are compared against the embedded
`analyze_repository`. -/

/-- Number of stored issues of the repository with the given severity. -/
def specSevCount (db : Db) (rid : Nat) (s : String) : Nat :=
  db.code_issues.countP (fun i => i.repository_id == rid && i.severity == s)

/-- Number of stored issues of the repository with the given issue type. -/
def specTypCount (db : Db) (rid : Nat) (ty : String) : Nat :=
  db.code_issues.countP (fun i => i.repository_id == rid && i.issue_type == ty)

/-- The spec's quality score:
`clamp(100 - (10*critical + 5*high + 2*medium + 1*low), 0, 100)`. -/
def specScore (db : Db) (rid : Nat) : Int :=
  max 0 (min 100 ((100 : Int) -
    (10 * (specSevCount db rid "critical" : Int) + 5 * (specSevCount db rid "high" : Int) +
     2 * (specSevCount db rid "medium" : Int) + 1 * (specSevCount db rid "low" : Int))))

/-! ### Concrete sample data (used by witnesses and counterexamples) -/

/-- A concrete GitHub metadata record. -/
def sampleRepoData : RepoData :=
  { full_name := "octocat/Hello-World", name := "Hello-World", owner_login := "octocat",
    description := some "My first repo", html_url := "https://github.com/octocat/Hello-World",
    visibility := some "public", stargazers_count := some 80, forks_count := some 9,
    watchers_count := some 80, language := some "C" }

/-- The empty store. -/
def emptyDb : Db := { repositories := [], code_issues := [], next_id := 1 }

/-- The create schema built from `sampleRepoData`. -/
def sampleCreate : RepositoryCreate := RepositoryCreate.ofRepoData sampleRepoData

/-- The repository row created from `sampleCreate` in the empty store. -/
def sampleRepo : Repo := Repo.ofCreate emptyDb sampleCreate

/-- A concrete stored code issue for repository id 1. -/
def sampleIssue (i : Nat) (sev ty : String) : CodeIssue :=
  { id := i, repository_id := 1, file_path := "src/main.py", line_number := 3,
    issue_type := ty, severity := sev, category := "codeQuality",
    message := "m", code := "c", suggestion := none }

/-- A store holding `sampleRepo` and three issues (one critical, two high). -/
def sampleDb : Db :=
  { repositories := [sampleRepo],
    code_issues := [sampleIssue 1 "critical" "security", sampleIssue 2 "high" "style",
                    sampleIssue 3 "high" "bug"],
    next_id := 2 }

/-! ## Theorems for the claims -/

/-- Claim C9: for every valid severity s in `{low, medium, high, critical}`,
`validate_severity` applied to the uppercased form returns the lowercased
canonical form, and `validate_severity` raises a validation error exactly
for the inputs whose lowercasing is not in that set. -/
theorem validate_severity_roundtrip :
    (∀ s ∈ allowed_severities, validate_severity (pyUpper s) = Except.ok (pyLower s)) ∧
    (∀ t : String, errKindOf (validate_severity t) = some ErrKind.validation ↔
      pyLower t ∉ allowed_severities) := by
  constructor
  · intro s hs
    fin_cases hs <;> decide
  · intro t
    by_cases hm : pyLower t ∈ allowed_severities
    · have h : allowed_severities.contains (pyLower t) = true := List.elem_eq_true_of_mem hm
      simp [validate_severity, h, errKindOf, hm]
    · have h : allowed_severities.contains (pyLower t) = false := by
        cases hc : allowed_severities.contains (pyLower t)
        · rfl
        · exact absurd (List.mem_of_elem_eq_true hc) hm
      simp [validate_severity, h, errKindOf, AppError.kind, hm]

/-- Witness for C9 at the concrete severity `"low"` and the concrete
invalid input `"urgent"`. -/
theorem validate_severity_roundtrip_witness :
    validate_severity (pyUpper "low") = Except.ok (pyLower "low") ∧
    (errKindOf (validate_severity "urgent") = some ErrKind.validation ↔
      pyLower "urgent" ∉ allowed_severities) :=
  ⟨validate_severity_roundtrip.1 "low" (by decide), validate_severity_roundtrip.2 "urgent"⟩

/-- Claim C10: `validate_issue_type` is case-sensitive and the identity on
valid inputs: it returns `t` unchanged when `t` is exactly one of
`{security, performance, codeQuality, accessibility, bug, style}`, raises
a validation error for every other string, and in particular rejects the
case variants `"CodeQuality"` and `"SECURITY"`. -/
theorem validate_issue_type_case_sensitive_identity :
    (∀ t ∈ allowed_types, validate_issue_type t = Except.ok t) ∧
    (∀ t : String, t ∉ allowed_types →
      errKindOf (validate_issue_type t) = some ErrKind.validation) ∧
    errKindOf (validate_issue_type "CodeQuality") = some ErrKind.validation ∧
    errKindOf (validate_issue_type "SECURITY") = some ErrKind.validation := by
  refine ⟨?_, ?_, by decide, by decide⟩
  · intro t ht
    fin_cases ht <;> decide
  · intro t hm
    have h : allowed_types.contains t = false := by
      cases hc : allowed_types.contains t
      · rfl
      · exact absurd (List.mem_of_elem_eq_true hc) hm
    simp [validate_issue_type, h, errKindOf, AppError.kind, hm]

/-- Witness for C10 at the concrete valid type `"security"` and the
concrete invalid case variant `"Security"`. -/
theorem validate_issue_type_case_sensitive_identity_witness :
    validate_issue_type "security" = Except.ok "security" ∧
    errKindOf (validate_issue_type "Security") = some ErrKind.validation :=
  ⟨validate_issue_type_case_sensitive_identity.1 "security" (by decide),
   validate_issue_type_case_sensitive_identity.2.1 "Security" (by decide)⟩

/-- Counterexample to claim C4: inserting a repository whose `full_name`
already exists does not fail with a conflict-kind error — the unique
constraint violation surfaces through the generic handler as an internal
error. -/
theorem create_repository_duplicate_not_conflict :
    (∃ r ∈ sampleDb.repositories, r.full_name = sampleCreate.full_name) ∧
    errKindOf (create_repository sampleDb sampleCreate) = some ErrKind.internal ∧
    ErrKind.internal ≠ ErrKind.conflict :=
  ⟨⟨sampleRepo, by decide, by decide⟩, by decide, by decide⟩

/-- Claim C4 as amended: inserting a repository whose `full_name` already
exists fails with a database integrity error surfaced as a generic
internal error (not a conflict-kind error), and for every `full_name` not
present the insert succeeds and returns the created record. -/
theorem create_repository_insert_semantics (db : Db) (rc : RepositoryCreate) :
    ((∃ r ∈ db.repositories, r.full_name = rc.full_name) →
      create_repository db rc =
        Except.error (AppError.internal "UNIQUE constraint failed: repositories.full_name")) ∧
    ((∀ r ∈ db.repositories, r.full_name ≠ rc.full_name) →
      ∃ db', create_repository db rc = Except.ok (db', Repo.ofCreate db rc) ∧
        db'.repositories = db.repositories ++ [Repo.ofCreate db rc] ∧
        db'.code_issues = db.code_issues) := by
  constructor
  · rintro ⟨r, hr, hfn⟩
    have h : db.repositories.any (fun x => x.full_name == rc.full_name) = true := by
      simp only [List.any_eq_true]
      exact ⟨r, hr, by simp [hfn]⟩
    simp [create_repository, h]
  · intro hall
    have h : db.repositories.any (fun x => x.full_name == rc.full_name) = false := by
      cases hc : db.repositories.any (fun x => x.full_name == rc.full_name)
      · rfl
      · exfalso
        rcases List.any_eq_true.mp hc with ⟨r, hr, hfn⟩
        exact hall r hr (by simpa using hfn)
    exact ⟨{ repositories := db.repositories ++ [Repo.ofCreate db rc],
             code_issues := db.code_issues, next_id := db.next_id + 1 },
           by simp [create_repository, h], rfl, rfl⟩

/-- Witness for the amended C4: the duplicate insert into `sampleDb` and
the fresh insert into the empty store. -/
theorem create_repository_insert_semantics_witness :
    create_repository sampleDb sampleCreate =
      Except.error (AppError.internal "UNIQUE constraint failed: repositories.full_name") ∧
    (∃ db', create_repository emptyDb sampleCreate =
        Except.ok (db', Repo.ofCreate emptyDb sampleCreate) ∧
      db'.repositories = emptyDb.repositories ++ [Repo.ofCreate emptyDb sampleCreate] ∧
      db'.code_issues = emptyDb.code_issues) :=
  ⟨(create_repository_insert_semantics sampleDb sampleCreate).1
      ⟨sampleRepo, by decide, by decide⟩,
   (create_repository_insert_semantics emptyDb sampleCreate).2
      (by intro r hr; cases hr)⟩

/-- Counterexample to claim C5: an upstream 404 yields an
external-service-kind error, not a not-found-kind error, and a 2xx status
other than 200 (here 201) also yields an error instead of the metadata
record. -/
theorem get_repository_404_kind_counterexample :
    errKindOf (get_repository (HttpOutcome.response 404 sampleRepoData)) =
      some ErrKind.externalService ∧
    ErrKind.externalService ≠ ErrKind.notFound ∧
    errKindOf (get_repository (HttpOutcome.response 201 sampleRepoData)) =
      some ErrKind.externalService := by
  decide

/-- Claim C5 as amended: for every fetch by the GitHub client, an upstream
404 yields an external-service error with message `"Repository not found"`
(not a not-found-kind error); any other non-200 response or transport
failure yields an external-service error carrying the upstream
status/message; a 200 response yields the metadata record; and exactly
one upstream request is issued per call (no retries, no fallback). -/
theorem get_repository_error_mapping (responses : Nat → HttpOutcome) :
    (get_repository_run responses).2 = 1 ∧
    (get_repository_run responses).1 = get_repository (responses 0) ∧
    (∀ body, responses 0 = HttpOutcome.response 404 body →
      (get_repository_run responses).1 =
        Except.error (AppError.externalService "GitHub" "Repository not found")) ∧
    (∀ stat body, responses 0 = HttpOutcome.response stat body → stat ≠ 404 → stat ≠ 200 →
      (get_repository_run responses).1 =
        Except.error (AppError.externalService "GitHub"
          ("API returned status " ++ toString stat))) ∧
    (∀ msg, responses 0 = HttpOutcome.transportError msg →
      (get_repository_run responses).1 =
        Except.error (AppError.externalService "GitHub" ("Request failed: " ++ msg))) ∧
    (∀ body, responses 0 = HttpOutcome.response 200 body →
      (get_repository_run responses).1 = Except.ok body) := by
  refine ⟨rfl, rfl, ?_, ?_, ?_, ?_⟩
  · intro body h
    simp [get_repository_run, get_repository, h]
  · intro stat body h h404 h200
    simp [get_repository_run, get_repository, h, h404, h200]
  · intro msg h
    simp [get_repository_run, get_repository, h]
  · intro body h
    simp [get_repository_run, get_repository, h]

/-- Witness for the amended C5 at concrete upstream outcomes 404 and 200. -/
theorem get_repository_error_mapping_witness :
    (get_repository_run (fun _ => HttpOutcome.response 404 sampleRepoData)).1 =
      Except.error (AppError.externalService "GitHub" "Repository not found") ∧
    (get_repository_run (fun _ => HttpOutcome.response 200 sampleRepoData)).1 =
      Except.ok sampleRepoData :=
  ⟨(get_repository_error_mapping _).2.2.1 sampleRepoData rfl,
   (get_repository_error_mapping _).2.2.2.2.2 sampleRepoData rfl⟩

/-- Counterexample to claim C6: when neither a caller token nor a
configured token exists, the analyze call's token resolution fails with an
authentication error instead of proceeding unauthenticated. -/
theorem analyze_token_flow_no_token_counterexample :
    errKindOf (analyze_token_flow none none (fun _ => true)) = some ErrKind.authentication ∧
    okOf (analyze_token_flow none none (fun _ => true)) = none := by
  decide

/-- Helper: splitting at separators leaves a separator-free nonempty list
in one piece. -/
theorem splitP_no_sep (p : Char → Bool) (l : List Char) (hl : l ≠ [])
    (h : ∀ c ∈ l, p c = false) : splitP p l = [l] := by
  induction l with
  | nil => exact absurd rfl hl
  | cons c cs ih =>
    have hc : p c = false := h c (List.mem_cons_self c cs)
    cases cs with
    | nil => simp [splitP, hc]
    | cons d ds =>
      have hrec : splitP p (d :: ds) = [d :: ds] :=
        ih (by simp) (fun x hx => h x (List.mem_cons_of_mem c hx))
      rw [splitP, hrec]
      simp [hc]

/-- Claim C6 as amended: the GitHub client attaches the caller-provided
token as the `Authorization: token <t>` credential if one is given (after
upstream validation); otherwise it falls back to the configured token; but
if neither exists the analyze call fails with an authentication error
(`"GitHub token required"`) before any repository request is made. -/
theorem analyze_token_flow_semantics (settings_github_token : Option String)
    (github_token_valid : String → Bool) :
    (∀ tok : String, tok ≠ "" → (∀ c ∈ tok.data, isPySpace c = false) →
      github_token_valid tok = true →
      analyze_token_flow (some ("token " ++ tok)) settings_github_token github_token_valid =
        Except.ok { token := some tok, authorizationHeader := some ("token " ++ tok) }) ∧
    (∀ s : String, s ≠ "" →
      analyze_token_flow none (some s) github_token_valid =
        Except.ok { token := some s, authorizationHeader := some ("token " ++ s) }) ∧
    (truthy settings_github_token = false →
      analyze_token_flow none settings_github_token github_token_valid =
        Except.error (AppError.authentication "GitHub token required")) := by
  refine ⟨?_, ?_, ?_⟩
  · intro tok htok hns hvalid
    have hdata : tok.data ≠ [] := by
      intro hc
      exact htok (by cases tok; simp_all)
    have hsplit : pySplitWs ("token " ++ tok) = ["token", tok] := by
      have hd : ("token " ++ tok).data = 't' :: 'o' :: 'k' :: 'e' :: 'n' :: ' ' :: tok.data := by
        rfl
      simp [pySplitWs, hd, splitP, isPySpace, splitP_no_sep isPySpace tok.data hdata hns, hdata]
    have hne : ("token " ++ tok) ≠ "" := by
      intro hc
      have hlen := congrArg String.length hc
      simp [String.length_append] at hlen
      exact absurd hlen.1 (by decide)
    have htr : truthy (some ("token " ++ tok)) = true := by
      simp [truthy, hne]
    have hplow : (pyLower "token" == "bearer" || pyLower "token" == "token") = true := by decide
    have htt : truthy (some tok) = true := by simp [truthy, htok]
    have hinit : GitHubService.init (some tok) settings_github_token =
        { token := some tok, authorizationHeader := some ("token " ++ tok) } := by
      simp [GitHubService.init, pyOr, htt]
    simp [analyze_token_flow, get_github_token, htr, hsplit, hplow, hvalid, hinit]
  · intro s hs
    have htn : truthy (none : Option String) = false := rfl
    have hts : truthy (some s) = true := by simp [truthy, hs]
    have hinit : GitHubService.init (some s) (some s) =
        { token := some s, authorizationHeader := some ("token " ++ s) } := by
      simp [GitHubService.init, pyOr, hts]
    simp [analyze_token_flow, get_github_token, htn, hts, hinit]
  · intro hset
    have htn : truthy (none : Option String) = false := rfl
    simp [analyze_token_flow, get_github_token, htn, hset]

/-- Witness for the amended C6 at concrete tokens: a caller token, a
configured fallback token, and the missing-token failure. -/
theorem analyze_token_flow_semantics_witness :
    analyze_token_flow (some ("token " ++ "abc123")) none (fun _ => true) =
      Except.ok { token := some "abc123", authorizationHeader := some ("token " ++ "abc123") } ∧
    analyze_token_flow none (some "cfg") (fun _ => true) =
      Except.ok { token := some "cfg", authorizationHeader := some ("token " ++ "cfg") } ∧
    analyze_token_flow none none (fun _ => true) =
      Except.error (AppError.authentication "GitHub token required") :=
  ⟨(analyze_token_flow_semantics none (fun _ => true)).1 "abc123" (by decide) (by decide) rfl,
   (analyze_token_flow_semantics (some "cfg") (fun _ => true)).2.1 "cfg" (by decide),
   (analyze_token_flow_semantics none (fun _ => true)).2.2 (by decide)⟩

/-- Helper: the lookup/insert step never touches the issue table. -/
theorem analysisTarget_code_issues (db : Db) (rd : RepoData) :
    (analysisTarget db rd).1.code_issues = db.code_issues := by
  unfold analysisTarget
  cases h : find_by_full_name db rd.full_name <;> simp [h, insert_repo]

/-- Helper: the severity count queried after the lookup/insert step equals
the multiset count over the originally stored issues. -/
theorem countSev_spec (db : Db) (rd : RepoData) (rid : Nat) (s : String) :
    countSev (analysisTarget db rd).1 rid s = specSevCount db rid s := by
  unfold countSev specSevCount
  rw [analysisTarget_code_issues, List.countP_eq_length_filter]

/-- Helper: the type count queried after the lookup/insert step equals the
multiset count over the originally stored issues. -/
theorem countTyp_spec (db : Db) (rd : RepoData) (rid : Nat) (ty : String) :
    countTyp (analysisTarget db rd).1 rid ty = specTypCount db rid ty := by
  unfold countTyp specTypCount
  rw [analysisTarget_code_issues, List.countP_eq_length_filter]

/-- Helper: closed form of the analysis summary in terms of the spec-side
counts and score. -/
theorem analyze_repository_response (db : Db) (rd : RepoData) (now : Nat) :
    (analyze_repository db rd now).2 =
      { repository_id := (analysisTarget db rd).2.id,
        total_issues := ((severity_list.map (fun s =>
            (s, specSevCount db (analysisTarget db rd).2.id s))).map Prod.snd).sum,
        issues_by_severity := severity_list.map (fun s =>
            (s, specSevCount db (analysisTarget db rd).2.id s)),
        issues_by_type := type_list.map (fun ty =>
            (ty, specTypCount db (analysisTarget db rd).2.id ty)),
        code_quality_score := specScore db (analysisTarget db rd).2.id } := by
  simp only [analyze_repository, countSev_spec, countTyp_spec]
  simp [specScore, dictGet, severity_list, List.lookup]

/-- Claim C1: for every store and fetched metadata record, the analysis
summary reports severity counts over exactly `{low, medium, high,
critical}` and type counts over exactly `{security, performance,
codeQuality, accessibility, bug, style}` (absent ones as 0, being multiset
counts of the stored issues), `total_issues` equal to the sum of the
severity counts, and a quality score equal to
`clamp(100 - (10*critical + 5*high + 2*medium + 1*low), 0, 100)`; in
particular the score is always within `[0, 100]` and zero stored issues
for the repository yield score 100. -/
theorem analyze_aggregation_correct (db : Db) (rd : RepoData) (now : Nat) :
    ((analyze_repository db rd now).2.issues_by_severity.map Prod.fst = severity_list) ∧
    ((analyze_repository db rd now).2.issues_by_type.map Prod.fst = type_list) ∧
    (∀ s ∈ severity_list, (analyze_repository db rd now).2.issues_by_severity.lookup s =
      some (specSevCount db (analysisTarget db rd).2.id s)) ∧
    (∀ ty ∈ type_list, (analyze_repository db rd now).2.issues_by_type.lookup ty =
      some (specTypCount db (analysisTarget db rd).2.id ty)) ∧
    ((analyze_repository db rd now).2.total_issues =
      ((analyze_repository db rd now).2.issues_by_severity.map Prod.snd).sum) ∧
    ((analyze_repository db rd now).2.code_quality_score =
      specScore db (analysisTarget db rd).2.id) ∧
    (0 ≤ (analyze_repository db rd now).2.code_quality_score) ∧
    ((analyze_repository db rd now).2.code_quality_score ≤ 100) ∧
    ((∀ i ∈ db.code_issues, i.repository_id ≠ (analysisTarget db rd).2.id) →
      (analyze_repository db rd now).2.code_quality_score = 100) := by
  rw [analyze_repository_response]
  refine ⟨?_, ?_, ?_, ?_, rfl, rfl, ?_, ?_, ?_⟩
  · simp [severity_list]
  · simp [type_list]
  · intro s hs
    fin_cases hs <;> simp [severity_list, List.lookup]
  · intro ty hty
    fin_cases hty <;> simp [type_list, List.lookup]
  · exact le_max_left 0 _
  · exact max_le (by norm_num) (min_le_left _ _)
  · intro hno
    have hz : ∀ s, specSevCount db (analysisTarget db rd).2.id s = 0 := by
      intro s
      unfold specSevCount
      rw [List.countP_eq_zero]
      intro i hi
      simp [hno i hi]
    simp [specScore, hz]

/-- Witness for C1 on `sampleDb` (1 critical + 2 high issues, count 2 for
severity `"high"`) and on the empty store (score 100). -/
theorem analyze_aggregation_correct_witness :
    ((analyze_repository sampleDb sampleRepoData 0).2.issues_by_severity.lookup "high" =
      some (specSevCount sampleDb (analysisTarget sampleDb sampleRepoData).2.id "high")) ∧
    specSevCount sampleDb (analysisTarget sampleDb sampleRepoData).2.id "high" = 2 ∧
    ((analyze_repository emptyDb sampleRepoData 0).2.code_quality_score = 100) :=
  ⟨(analyze_aggregation_correct sampleDb sampleRepoData 0).2.2.1 "high" (by decide), by decide,
   (analyze_aggregation_correct emptyDb sampleRepoData 0).2.2.2.2.2.2.2.2
     (by intro i hi; cases hi)⟩

/-- Helper: `find?` over a map commutes when the mapped function preserves
the predicate. -/
theorem find_map_pred_pres (l : List Repo) (f : Repo → Repo) (p : Repo → Bool)
    (hp : ∀ x, p (f x) = p x) : (l.map f).find? p = Option.map f (l.find? p) := by
  induction l with
  | nil => rfl
  | cons x xs ih =>
    cases hpx : p x with
    | true =>
      have h1 : p (f x) = true := (hp x).trans hpx
      rw [List.map_cons, List.find?_cons_of_pos _ h1, List.find?_cons_of_pos _ hpx]
      rfl
    | false =>
      have h1 : p (f x) = false := (hp x).trans hpx
      rw [List.map_cons, List.find?_cons_of_neg _ (by simp [h1]),
          List.find?_cons_of_neg _ (by simp [hpx]), ih]

/-- Helper: `find?` skips a prefix in which nothing matches. -/
theorem find_append_none (l₁ l₂ : List Repo) (p : Repo → Bool) (h : l₁.find? p = none) :
    (l₁ ++ l₂).find? p = l₂.find? p := by
  induction l₁ with
  | nil => rfl
  | cons x xs ih =>
    cases hpx : p x with
    | true =>
      rw [List.find?_cons_of_pos _ hpx] at h
      cases h
    | false =>
      rw [List.find?_cons_of_neg _ (by simp [hpx])] at h
      rw [List.cons_append, List.find?_cons_of_neg _ (by simp [hpx]), ih h]

/-- Helper: looking up by full name after the metrics update finds the
same row, with the metrics fields set when its id matches. -/
theorem find_by_full_name_update (db : Db) (rid : Nat) (q : Int) (n : Nat) (now : Nat)
    (fn : String) :
    find_by_full_name (update_repo_metrics db rid q n now) fn =
      Option.map (fun r => if r.id == rid then
          { r with code_quality := some q, issues_count := some n,
                   last_updated := some now } else r)
        (find_by_full_name db fn) := by
  unfold find_by_full_name update_repo_metrics
  apply find_map_pred_pres
  intro x
  cases hx : (x.id == rid) <;> simp [hx]

/-- Helper: closed form of the store state after one analysis call. -/
theorem analyze_repository_db (db : Db) (rd : RepoData) (now : Nat) :
    (analyze_repository db rd now).1 =
      update_repo_metrics (analysisTarget db rd).1 (analysisTarget db rd).2.id
        (specScore db (analysisTarget db rd).2.id)
        (((severity_list.map (fun s =>
            (s, specSevCount db (analysisTarget db rd).2.id s))).map Prod.snd).sum) now := by
  simp only [analyze_repository, countSev_spec]
  simp [specScore, dictGet, severity_list, List.lookup]

/-- Helper: an analysis call leaves the issue table unchanged. -/
theorem analyze_code_issues (db : Db) (rd : RepoData) (now : Nat) :
    (analyze_repository db rd now).1.code_issues = db.code_issues := by
  rw [analyze_repository_db]
  simp [update_repo_metrics, analysisTarget_code_issues]

/-- Helper: after the metrics update of one analysis call, a second lookup
resolves to a row with the same id. -/
theorem analysisTarget_update_id (db : Db) (rd : RepoData) (q : Int) (n : Nat) (now : Nat) :
    (analysisTarget (update_repo_metrics (analysisTarget db rd).1
        (analysisTarget db rd).2.id q n now) rd).2.id = (analysisTarget db rd).2.id := by
  cases hf : find_by_full_name db rd.full_name with
  | some r =>
    have ht : analysisTarget db rd = (db, r) := by simp [analysisTarget, hf]
    rw [ht]
    have h2 : find_by_full_name (update_repo_metrics db r.id q n now) rd.full_name =
        some { r with code_quality := some q, issues_count := some n,
                      last_updated := some now } := by
      rw [find_by_full_name_update, hf]
      simp
    simp [analysisTarget, h2]
  | none =>
    have ht : analysisTarget db rd = insert_repo db rd := by simp [analysisTarget, hf]
    rw [ht]
    have hfind1 : find_by_full_name (insert_repo db rd).1 rd.full_name =
        some (insert_repo db rd).2 := by
      unfold find_by_full_name insert_repo
      rw [find_append_none _ _ _ hf]
      simp [Repo.ofCreate, RepositoryCreate.ofRepoData]
    have h2 : find_by_full_name (update_repo_metrics (insert_repo db rd).1
        (insert_repo db rd).2.id q n now) rd.full_name =
        some { (insert_repo db rd).2 with code_quality := some q, issues_count := some n,
                                          last_updated := some now } := by
      rw [find_by_full_name_update, hfind1]
      simp
    simp [analysisTarget, h2]

/-- Helper: the analysis summary depends on the store only through the
resolved repository id and the issue table. -/
theorem analyze_response_congr (db db' : Db) (rd : RepoData) (now now' : Nat)
    (hid : (analysisTarget db' rd).2.id = (analysisTarget db rd).2.id)
    (hci : db'.code_issues = db.code_issues) :
    (analyze_repository db' rd now').2 = (analyze_repository db rd now).2 := by
  have hsev : ∀ rid s, specSevCount db' rid s = specSevCount db rid s := by
    intro rid s
    unfold specSevCount
    rw [hci]
  have htyp : ∀ rid ty, specTypCount db' rid ty = specTypCount db rid ty := by
    intro rid ty
    unfold specTypCount
    rw [hci]
  have hsc : ∀ rid, specScore db' rid = specScore db rid := by
    intro rid
    unfold specScore
    rw [hsev, hsev, hsev, hsev]
  rw [analyze_repository_response, analyze_repository_response, hid]
  simp [hsev, htyp, hsc]

/-- Claim C8: calling analyze twice in immediate succession on the same
repository (the second call running on the store produced by the first,
with issue data and fetched metadata unchanged) yields the same analysis
summary both times — same repository id, totals, per-severity and per-type
counts, and quality score. -/
theorem analyze_idempotent (db : Db) (rd : RepoData) (now1 now2 : Nat) :
    (analyze_repository (analyze_repository db rd now1).1 rd now2).2 =
      (analyze_repository db rd now1).2 := by
  apply analyze_response_congr
  · rw [analyze_repository_db]
    exact analysisTarget_update_id db rd _ _ _
  · exact analyze_code_issues db rd now1

/-- Helper: a successful `find?` splits the list into a non-matching
prefix, the found element, and a suffix. -/
theorem find_decomp (l : List Repo) (p : Repo → Bool) (r : Repo) (h : l.find? p = some r) :
    ∃ l₁ l₂, l = l₁ ++ r :: l₂ ∧ ∀ x ∈ l₁, p x = false := by
  induction l with
  | nil => cases h
  | cons x xs ih =>
    cases hpx : p x with
    | true =>
      rw [List.find?_cons_of_pos _ hpx] at h
      injection h with h
      exact ⟨[], xs, by rw [h]; rfl, by intro y hy; cases hy⟩
    | false =>
      rw [List.find?_cons_of_neg _ (by simp [hpx])] at h
      rcases ih h with ⟨l₁, l₂, hdec, hl₁⟩
      refine ⟨x :: l₁, l₂, by rw [hdec]; rfl, ?_⟩
      intro y hy
      rcases List.mem_cons.mp hy with hy | hy
      · exact hy ▸ hpx
      · exact hl₁ y hy

/-- Helper: with pairwise-distinct ids, the metrics update rewrites
exactly the distinguished row and leaves every other row unchanged. -/
theorem map_update_decomposed (l₁ l₂ : List Repo) (r : Repo) (q : Int) (n : Nat) (now : Nat)
    (hnodup : ((l₁ ++ r :: l₂).map Repo.id).Nodup) :
    (l₁ ++ r :: l₂).map (fun x => if x.id == r.id then
        { x with code_quality := some q, issues_count := some n,
                 last_updated := some now } else x) =
      l₁ ++ { r with code_quality := some q, issues_count := some n,
                     last_updated := some now } :: l₂ := by
  rw [List.map_append] at hnodup
  have hdisj := List.disjoint_of_nodup_append hnodup
  have h1 : ∀ x ∈ l₁, x.id ≠ r.id := by
    intro x hx heq
    exact hdisj (List.mem_map_of_mem Repo.id hx)
      (by rw [List.map_cons]; exact heq ▸ List.mem_cons_self _ _)
  have hr2 : r.id ∉ l₂.map Repo.id := by
    have hn2 := List.Nodup.of_append_right hnodup
    rw [List.map_cons] at hn2
    exact (List.nodup_cons.mp hn2).1
  have h2 : ∀ x ∈ l₂, x.id ≠ r.id := by
    intro x hx heq
    exact hr2 (heq ▸ List.mem_map_of_mem Repo.id hx)
  rw [List.map_append, List.map_cons]
  have hl1 : l₁.map (fun x => if x.id == r.id then
      { x with code_quality := some q, issues_count := some n,
               last_updated := some now } else x) = l₁ := by
    conv_rhs => rw [← List.map_id l₁]
    apply List.map_congr_left
    intro x hx
    simp [h1 x hx]
  have hl2 : l₂.map (fun x => if x.id == r.id then
      { x with code_quality := some q, issues_count := some n,
               last_updated := some now } else x) = l₂ := by
    conv_rhs => rw [← List.map_id l₂]
    apply List.map_congr_left
    intro x hx
    simp [h2 x hx]
  rw [hl1, hl2]
  simp

/-- Counterexample to claim C7: the metrics commit rewrites a repository
field other than `code_quality` and `issues_count` — the `last_updated`
column (declared with `onupdate=datetime.utcnow`) is set to the commit
time by the same UPDATE, here changing from unset to the clock value. -/
theorem analyze_touches_last_updated_counterexample :
    sampleDb.repositories.map Repo.last_updated = [none] ∧
    (analyze_repository sampleDb sampleRepoData 1700000000).1.repositories.map
      Repo.last_updated = [some 1700000000] ∧
    (some 1700000000 : Option Nat) ≠ none := by
  decide

/-- Claim C7 as amended: under the primary-key invariants (all row ids
below the id counter and pairwise distinct), one analysis call never
creates, mutates or deletes an issue row, and touches the repository
table as follows: if a row with the fetched `full_name` exists, exactly
that row is replaced in place by a copy differing only in `code_quality`,
`issues_count` and `last_updated` (the timestamp is rewritten to the
commit time by the `onupdate` hook); if no such row exists, exactly one
new row carrying the fetched `full_name` is appended (with its timestamp
likewise set by the metrics commit) and the existing rows are unchanged. -/
theorem analyze_frame_effect (db : Db) (rd : RepoData) (now : Nat)
    (hid : ∀ x ∈ db.repositories, x.id < db.next_id)
    (hnodup : (db.repositories.map Repo.id).Nodup) :
    ((analyze_repository db rd now).1.code_issues = db.code_issues) ∧
    (∀ r, find_by_full_name db rd.full_name = some r →
      ∃ q n l₁ l₂, db.repositories = l₁ ++ r :: l₂ ∧
        (analyze_repository db rd now).1.repositories =
          l₁ ++ { r with code_quality := some q, issues_count := some n,
                         last_updated := some now } :: l₂) ∧
    (find_by_full_name db rd.full_name = none →
      ∃ (nr : Repo) (q : Int) (n : Nat), nr.full_name = rd.full_name ∧
        (analyze_repository db rd now).1.repositories =
          db.repositories ++
            [{ nr with code_quality := some q, issues_count := some n,
                       last_updated := some now }]) := by
  refine ⟨analyze_code_issues db rd now, ?_, ?_⟩
  · intro r hf
    have ht : analysisTarget db rd = (db, r) := by simp [analysisTarget, hf]
    rcases find_decomp db.repositories _ r hf with ⟨l₁, l₂, hdec, _⟩
    refine ⟨specScore db r.id,
      ((severity_list.map (fun s => (s, specSevCount db r.id s))).map Prod.snd).sum,
      l₁, l₂, hdec, ?_⟩
    rw [analyze_repository_db, ht]
    simp only [update_repo_metrics]
    rw [hdec]
    exact map_update_decomposed l₁ l₂ r _ _ _ (by rw [← hdec]; exact hnodup)
  · intro hf
    have ht : analysisTarget db rd = insert_repo db rd := by simp [analysisTarget, hf]
    refine ⟨(insert_repo db rd).2, specScore db (insert_repo db rd).2.id,
      ((severity_list.map (fun s =>
        (s, specSevCount db (insert_repo db rd).2.id s))).map Prod.snd).sum,
      rfl, ?_⟩
    rw [analyze_repository_db, ht]
    simp only [update_repo_metrics, insert_repo]
    rw [List.map_append]
    have hold : ∀ (q : Int) (n m : Nat), db.repositories.map (fun x =>
        if x.id == db.next_id then
          { x with code_quality := some q, issues_count := some n,
                   last_updated := some m } else x) = db.repositories := by
      intro q n m
      conv_rhs => rw [← List.map_id db.repositories]
      apply List.map_congr_left
      intro x hx
      have : x.id ≠ db.next_id := Nat.ne_of_lt (hid x hx)
      simp [this]
    rw [show (Repo.ofCreate db (RepositoryCreate.ofRepoData rd)).id = db.next_id from rfl,
        hold]
    simp [Repo.ofCreate]

/-- Witness for the amended C7: the update branch on `sampleDb` (which
holds the row for the fetched repository) and the insert branch on the
empty store, at commit time 5. -/
theorem analyze_frame_effect_witness :
    ((analyze_repository sampleDb sampleRepoData 5).1.code_issues = sampleDb.code_issues) ∧
    (∃ q n l₁ l₂, sampleDb.repositories = l₁ ++ sampleRepo :: l₂ ∧
      (analyze_repository sampleDb sampleRepoData 5).1.repositories =
        l₁ ++ { sampleRepo with code_quality := some q, issues_count := some n,
                                last_updated := some 5 } :: l₂) ∧
    (∃ (nr : Repo) (q : Int) (n : Nat), nr.full_name = sampleRepoData.full_name ∧
      (analyze_repository emptyDb sampleRepoData 5).1.repositories =
        emptyDb.repositories ++
          [{ nr with code_quality := some q, issues_count := some n,
                     last_updated := some 5 }]) :=
  ⟨(analyze_frame_effect sampleDb sampleRepoData 5 (by decide) (by decide)).1,
   (analyze_frame_effect sampleDb sampleRepoData 5 (by decide) (by decide)).2.1 sampleRepo
     (by decide),
   (analyze_frame_effect emptyDb sampleRepoData 5 (by decide) (by decide)).2.2 (by decide)⟩

/-- Helper: the scheme splitter removes a leading `https:`. -/
theorem dropScheme_https (rest : List Char) :
    dropScheme ('h' :: 't' :: 't' :: 'p' :: 's' :: ':' :: rest) = rest := rfl

/-- Helper: after `//`, the netloc `github.com` ends at the first slash. -/
theorem splitNetloc_github (tail : List Char) :
    splitNetloc ('/' :: '/' ::
        (['g', 'i', 't', 'h', 'u', 'b', '.', 'c', 'o', 'm'] ++ '/' :: tail)) =
      (['g', 'i', 't', 'h', 'u', 'b', '.', 'c', 'o', 'm'], '/' :: tail) := rfl

/-- Helper: `takeWhile` keeps a list all of whose elements satisfy the
predicate. -/
theorem takeWhile_all (p : Char → Bool) (l : List Char) (h : ∀ c ∈ l, p c = true) :
    l.takeWhile p = l := by
  induction l with
  | nil => rfl
  | cons c cs ih =>
    rw [List.takeWhile_cons, h c (List.mem_cons_self c cs)]
    simp [ih (fun x hx => h x (List.mem_cons_of_mem c hx))]

/-- Helper: consequences of segment safety for the individual parsing
predicates. -/
theorem segSafeChar_props (c : Char) (h : segSafeChar c = true) :
    (c == '/') = false ∧ (!isRemovedByte c) = true ∧ (c != '?' && c != '#') = true := by
  simp [segSafeChar] at h
  obtain ⟨⟨⟨h1, h2⟩, h3⟩, h4⟩ := h
  refine ⟨by simp [h1], by simp [h4], by simp [h2, h3]⟩

/-- Helper: splitting a separator-free list yields one piece. -/
theorem splitChar_no_sep (sep : Char) (l : List Char) (h : ∀ c ∈ l, (c == sep) = false) :
    splitChar sep l = [l] := by
  induction l with
  | nil => rfl
  | cons c cs ih =>
    have hc := h c (List.mem_cons_self c cs)
    cases cs with
    | nil => simp [splitChar, hc]
    | cons d ds =>
      have hrec : splitChar sep (d :: ds) = [d :: ds] :=
        ih (fun x hx => h x (List.mem_cons_of_mem c hx))
      rw [splitChar, hrec]
      simp [hc]

/-- Helper: splitting peels off a separator-free prefix at the first
separator. -/
theorem splitChar_prefix_no_sep (sep : Char) (o suffix : List Char)
    (ho : ∀ c ∈ o, (c == sep) = false) :
    splitChar sep (o ++ sep :: suffix) = o :: splitChar sep suffix := by
  induction o with
  | nil => simp [splitChar]
  | cons c cs ih =>
    have hc := ho c (List.mem_cons_self c cs)
    have hrec : splitChar sep (cs ++ sep :: suffix) = cs :: splitChar sep suffix :=
      ih (fun x hx => ho x (List.mem_cons_of_mem c hx))
    rw [List.cons_append, splitChar, hrec]
    simp [hc]

/-- Helper: parsing `https://github.com/<owner>/<repo>` yields netloc
`github.com` and the expected path, for parse-safe segments. -/
theorem urlparse_https_github (o r : List Char) (ho : segSafe o) (hr : segSafe r) :
    urlparseNetlocPath ("https://github.com/".data ++ (o ++ '/' :: r)) =
      ("github.com".data, '/' :: (o ++ '/' :: r)) := by
  have hall : ∀ c ∈ "https://github.com/".data ++ (o ++ '/' :: r), (!isRemovedByte c) = true := by
    intro c hc
    rcases List.mem_append.mp hc with hc | hc
    · fin_cases hc <;> decide
    · rcases List.mem_append.mp hc with hc | hc
      · exact (segSafeChar_props c (ho c hc)).2.1
      · rcases List.mem_cons.mp hc with hc | hc
        · rw [hc]; decide
        · exact (segSafeChar_props c (hr c hc)).2.1
  have h1 : removeCtlBytes ("https://github.com/".data ++ (o ++ '/' :: r)) =
      "https://github.com/".data ++ (o ++ '/' :: r) := by
    unfold removeCtlBytes
    exact List.filter_eq_self.mpr hall
  have h2 : "https://github.com/".data ++ (o ++ '/' :: r) =
      'h' :: 't' :: 't' :: 'p' :: 's' :: ':' ::
        ('/' :: '/' :: (['g', 'i', 't', 'h', 'u', 'b', '.', 'c', 'o', 'm'] ++
          '/' :: (o ++ '/' :: r))) := rfl
  have h3 : ∀ c ∈ '/' :: (o ++ '/' :: r), (fun c => c != '?' && c != '#') c = true := by
    intro c hc
    rcases List.mem_cons.mp hc with hc | hc
    · rw [hc]; decide
    · rcases List.mem_append.mp hc with hc | hc
      · exact (segSafeChar_props c (ho c hc)).2.2
      · rcases List.mem_cons.mp hc with hc | hc
        · rw [hc]; decide
        · exact (segSafeChar_props c (hr c hc)).2.2
  unfold urlparseNetlocPath
  rw [h1, h2]
  simp only [dropScheme_https, splitNetloc_github]
  simp only [takePath]
  rw [takeWhile_all _ _ h3]

/-- Helper: acceptance of `https://github.com/<owner>/<repo>` is
equivalent to both segments matching the source's regex patterns. -/
theorem validate_accepts_iff_patterns (owner repo : String)
    (ho : segSafe owner.data) (hr : segSafe repo.data) :
    validate_github_url ("https://github.com/" ++ owner ++ "/" ++ repo) = Except.ok true ↔
      (owner_pattern owner.data = true ∧ repo_pattern repo.data = true) := by
  have hdata : ("https://github.com/" ++ owner ++ "/" ++ repo).data =
      "https://github.com/".data ++ (owner.data ++ '/' :: repo.data) := by
    simp [String.data_append]
  have hparse := urlparse_https_github owner.data repo.data ho hr
  have hnoslash_o : ∀ c ∈ owner.data, (c == '/') = false :=
    fun c hc => (segSafeChar_props c (ho c hc)).1
  have hnoslash_r : ∀ c ∈ repo.data, (c == '/') = false :=
    fun c hc => (segSafeChar_props c (hr c hc)).1
  have hsegs : pathSegments ('/' :: (owner.data ++ '/' :: repo.data)) =
      [owner.data, repo.data].filter (fun s => !s.isEmpty) := by
    unfold pathSegments
    have e1 : splitChar '/' ('/' :: (owner.data ++ '/' :: repo.data)) =
        [] :: splitChar '/' (owner.data ++ '/' :: repo.data) := by
      rw [splitChar]
      simp
    rw [e1, splitChar_prefix_no_sep '/' _ _ hnoslash_o, splitChar_no_sep '/' _ hnoslash_r]
    simp [List.filter]
  unfold validate_github_url
  rw [hdata, hparse]
  simp only []
  rw [if_pos (Or.inl trivial), hsegs]
  cases howner : owner.data with
  | nil =>
    cases hrepo : repo.data with
    | nil => simp [owner_pattern, matchesNamePat, List.filter]
    | cons d ds => simp [owner_pattern, matchesNamePat, List.filter]
  | cons c cs =>
    cases hrepo : repo.data with
    | nil => simp [repo_pattern, matchesNamePat, List.filter]
    | cons d ds =>
      simp only [List.filter, List.isEmpty_cons, Bool.not_false]
      cases hop : owner_pattern (c :: cs) <;> cases hrp : repo_pattern (d :: ds) <;>
        simp [hop, hrp]

/-- Helper: the path segments of `https://github.com/<owner>/<repo>` are
the nonempty ones among owner and repo. -/
theorem github_url_segments (owner repo : String)
    (ho : segSafe owner.data) (hr : segSafe repo.data) :
    pathSegments ((urlparseNetlocPath ("https://github.com/" ++ owner ++ "/" ++ repo).data).2) =
      [owner.data, repo.data].filter (fun s => !s.isEmpty) := by
  have hdata : ("https://github.com/" ++ owner ++ "/" ++ repo).data =
      "https://github.com/".data ++ (owner.data ++ '/' :: repo.data) := by
    simp [String.data_append]
  rw [hdata, urlparse_https_github owner.data repo.data ho hr]
  have hnoslash_o : ∀ c ∈ owner.data, (c == '/') = false :=
    fun c hc => (segSafeChar_props c (ho c hc)).1
  have hnoslash_r : ∀ c ∈ repo.data, (c == '/') = false :=
    fun c hc => (segSafeChar_props c (hr c hc)).1
  unfold pathSegments
  have e1 : splitChar '/' ('/' :: (owner.data ++ '/' :: repo.data)) =
      [] :: splitChar '/' (owner.data ++ '/' :: repo.data) := by
    rw [splitChar]
    simp
  rw [show ((("github.com".data : List Char), '/' :: (owner.data ++ '/' :: repo.data)).2 :
        List Char) = '/' :: (owner.data ++ '/' :: repo.data) from rfl,
      e1, splitChar_prefix_no_sep '/' _ _ hnoslash_o, splitChar_no_sep '/' _ hnoslash_r]
  simp [List.filter]

/-- Counterexample to claim C3: the schemeless form and the ssh-style form
of the scenario URL are rejected with a validation error, and a trailing
`.git` is not stripped from the resolved repo name. -/
theorem extract_repo_info_forms_counterexample :
    errKindOf (extract_repo_info "github.com/octocat/Hello-World") = some ErrKind.validation ∧
    errKindOf (extract_repo_info "git@github.com:octocat/Hello-World.git") =
      some ErrKind.validation ∧
    extract_repo_info "https://github.com/octocat/Hello-World.git" =
      Except.ok ("octocat", "Hello-World.git") := by
  decide

/-- Claim C3 as amended: for every parse-safe owner and repo matching the
code's name patterns, only the scheme-ful form `https://github.com/owner/repo`
is resolved, to exactly the pair `(owner, repo)` as written — a trailing
slash is tolerated and a trailing `.git` is kept in the repo name rather
than stripped — while the schemeless form `github.com/owner/repo` and the
ssh-style form `user@github.com:owner/repo.git` are rejected with a
validation error; in particular `https://github.com/octocat/Hello-World`
resolves to `("octocat", "Hello-World")`. -/
theorem extract_repo_info_resolution (owner repo : String)
    (ho : segSafe owner.data) (hr : segSafe repo.data)
    (hop : owner_pattern owner.data = true) (hrp : repo_pattern repo.data = true) :
    (extract_repo_info ("https://github.com/" ++ owner ++ "/" ++ repo) =
      Except.ok (owner, repo)) ∧
    (extract_repo_info "https://github.com/octocat/Hello-World" =
      Except.ok ("octocat", "Hello-World")) ∧
    (extract_repo_info "https://github.com/octocat/Hello-World/" =
      Except.ok ("octocat", "Hello-World")) ∧
    (extract_repo_info "https://github.com/octocat/Hello-World.git" =
      Except.ok ("octocat", "Hello-World.git")) ∧
    (errKindOf (extract_repo_info "github.com/octocat/Hello-World") =
      some ErrKind.validation) ∧
    (errKindOf (extract_repo_info "git@github.com:octocat/Hello-World.git") =
      some ErrKind.validation) := by
  refine ⟨?_, by decide, by decide, by decide, by decide, by decide⟩
  have hv : validate_github_url ("https://github.com/" ++ owner ++ "/" ++ repo) =
      Except.ok true := (validate_accepts_iff_patterns owner repo ho hr).mpr ⟨hop, hrp⟩
  unfold extract_repo_info
  rw [hv]
  simp only []
  rw [github_url_segments owner repo ho hr]
  cases howner : owner.data with
  | nil => exact absurd (howner ▸ hop) (by decide)
  | cons c cs =>
    cases hrepo : repo.data with
    | nil => exact absurd (hrepo ▸ hrp) (by decide)
    | cons d ds =>
      simp only [List.filter, List.isEmpty_cons, Bool.not_false]
      rw [← howner, ← hrepo]

/-- Witness for the amended C3 at the scenario pair
`("octocat", "Hello-World")`. -/
theorem extract_repo_info_resolution_witness :
    extract_repo_info ("https://github.com/" ++ "octocat" ++ "/" ++ "Hello-World") =
      Except.ok ("octocat", "Hello-World") :=
  (extract_repo_info_resolution "octocat" "Hello-World"
    (by decide) (by decide) (by decide) (by decide)).1

end CodeReview
